import Mathlib

/-!
Shallow embedding of the TRL validation rule catalog
(src/trl_streamlit.py): six SQL predicates over the dbo.co_trl table,
modelled as executable functions over lists of rows.  Nullable columns
are `Option` fields and SQL three-valued logic on them is made explicit:
a comparison against NULL is UNKNOWN, so a WHERE clause drops the row.
-/

/-- One row of the dbo.co_trl table.  Nullable columns are `Option`. -/
structure Row where
  client_id : Int
  reference_year : Int
  trl_id : Int
  is_extrapolated : Option Bool
  rationale : Option String
  source : Option String
  manual_review_quality_id : Option Int
  acq_date : Int
deriving DecidableEq, Repr

/-- A result row as the dashboard receives it: the base columns, plus the
rnk column that only the Priority Violation query adds (none for the
plain SELECT * rules). -/
structure QRow where
  row : Row
  rnk : Option Nat
deriving DecidableEq, Repr

/-- SQL `col = v` on a nullable column: NULL compares UNKNOWN, which a
WHERE clause treats as not satisfied. -/
def sqlEq {α : Type} [BEq α] (x : Option α) (v : α) : Bool :=
  match x with
  | none => false
  | some y => y == v

/-- SQL `col != v` on a nullable column: NULL compares UNKNOWN, which a
WHERE clause treats as not satisfied. -/
def sqlNe {α : Type} [BEq α] (x : Option α) (v : α) : Bool :=
  match x with
  | none => false
  | some y => y != v

/-- Rule "Invalid Non-Extrapolated Null Rationale":
`SELECT * FROM dbo.co_trl WHERE is_extrapolated = 0 AND rationale IS NULL`. -/
def invalidNonExtrapolatedNullRationale (t : List Row) : List Row :=
  t.filter fun r => sqlEq r.is_extrapolated false && r.rationale == none

/-- The `first_year` CTE: `SELECT client_id, MIN(reference_year)
FROM dbo.co_trl GROUP BY client_id`, read off for one client. -/
def clientMinYear (t : List Row) (c : Int) : Option Int :=
  ((t.filter fun r => r.client_id == c).map fun r => r.reference_year).min?

/-- Rule "Invalid Backward Extrapolation": join each row to its client's
minimum reference_year, keep `is_extrapolated = 1 AND trl_id != 9`. -/
def invalidBackwardExtrapolation (t : List Row) : List Row :=
  t.filter fun r =>
    clientMinYear t r.client_id == some r.reference_year
      && sqlEq r.is_extrapolated true && r.trl_id != 9

/-- Rule "Duplicate TRL Entries": the `duplicates` CTE groups by
(client_id, reference_year, trl_id) with `HAVING COUNT(*) > 1` and the
outer query joins every table row back to its group. -/
def duplicateTrlEntries (t : List Row) : List Row :=
  t.filter fun r =>
    decide (1 < t.countP fun s =>
      s.client_id == r.client_id && s.reference_year == r.reference_year
        && s.trl_id == r.trl_id)

/-- The CASE expression ordering the Priority Violation window:
manual_review_quality_id 1 and 2 give tiers 1 and 2, then the two
preferred sources give tiers 3 and 4, anything else tier 5. -/
def tier (r : Row) : Nat :=
  if sqlEq r.manual_review_quality_id 1 then 1
  else if sqlEq r.manual_review_quality_id 2 then 2
  else if sqlEq r.source "Cloud A" then 3
  else if sqlEq r.source "Perplexity (Sonar)" then 4
  else 5

/-- `ORDER BY` tier ascending, acq_date descending, as a total preorder. -/
def keyLE (a b : Row) : Prop :=
  tier a < tier b ∨ (tier a = tier b ∧ b.acq_date ≤ a.acq_date)

instance : DecidableRel keyLE := fun a b =>
  inferInstanceAs
    (Decidable (tier a < tier b ∨ (tier a = tier b ∧ b.acq_date ≤ a.acq_date)))

instance : IsTotal Row keyLE where
  total a b := by
    unfold keyLE
    rcases Nat.lt_trichotomy (tier a) (tier b) with h | h | h
    · exact Or.inl (Or.inl h)
    · rcases le_total b.acq_date a.acq_date with h' | h'
      · exact Or.inl (Or.inr ⟨h, h'⟩)
      · exact Or.inr (Or.inr ⟨h.symm, h'⟩)
    · exact Or.inr (Or.inl h)

instance : IsTrans Row keyLE where
  trans a b c hab hbc := by
    unfold keyLE at hab hbc ⊢
    rcases hab with h | ⟨h1, h2⟩ <;> rcases hbc with h' | ⟨h1', h2'⟩
    · exact Or.inl (h.trans h')
    · exact Or.inl (h1' ▸ h)
    · exact Or.inl (h1 ▸ h')
    · exact Or.inr ⟨h1.trans h1', h2'.trans h2⟩

/-- The `PARTITION BY client_id, reference_year` key of a row. -/
def groupKey (r : Row) : Int × Int := (r.client_id, r.reference_year)

/-- One window partition: the table rows carrying a given key. -/
def group (t : List Row) (k : Int × Int) : List Row :=
  t.filter fun r => groupKey r == k

/-- One partition arranged by the ORDER BY key; insertion sort realises
one valid engine ordering (ties on the key are unspecified in SQL). -/
def sortedGroup (t : List Row) (k : Int × Int) : List Row :=
  (group t k).insertionSort keyLE

/-- Attach ROW_NUMBER values n, n+1, ... to an ordered partition. -/
def withRanks : List Row → Nat → List (Row × Nat)
  | [], _ => []
  | r :: rs, n => (r, n) :: withRanks rs (n + 1)

/-- The distinct partition keys occurring in the table. -/
def tableKeys (t : List Row) : List (Int × Int) := (t.map groupKey).dedup

/-- The `ranked_trl` CTE: every table row together with its rnk value
inside its partition. -/
def rankedTrl (t : List Row) : List (Row × Nat) :=
  (tableKeys t).flatMap fun k => withRanks (sortedGroup t k) 1

/-- Rule "Priority Violation": `SELECT * FROM ranked_trl WHERE rnk > 1`. -/
def priorityViolation (t : List Row) : List (Row × Nat) :=
  (rankedTrl t).filter fun p => decide (1 < p.2)

/-- Rule "Null Rationale not Extrapolated (≠ 2025)":
`rationale IS NULL AND (is_extrapolated != 1 OR is_extrapolated IS NULL)
AND reference_year != 2025`. -/
def nullRationaleNotExtrapolated (t : List Row) : List Row :=
  t.filter fun r =>
    r.rationale == none
      && (sqlNe r.is_extrapolated true || r.is_extrapolated == none)
      && r.reference_year != 2025

/-- Rule "Extrapolated Rows with Rationale":
`is_extrapolated = 1 AND rationale IS NOT NULL`. -/
def extrapolatedRowsWithRationale (t : List Row) : List Row :=
  t.filter fun r => sqlEq r.is_extrapolated true && !(r.rationale == none)

/-- A catalog entry: rule name, description, and the predicate's meaning
as a function from the table to the result rows. -/
structure Check where
  name : String
  description : String
  run : List Row → List QRow

/-- A plain `SELECT *` result: base columns only, no rnk column. -/
def plainResult (rs : List Row) : List QRow := rs.map fun r => ⟨r, none⟩

/-- The Priority Violation result: base columns plus the rnk column. -/
def rankedResult (rs : List (Row × Nat)) : List QRow :=
  rs.map fun p => ⟨p.1, some p.2⟩

/-- The rule catalog, in the source's insertion order. -/
def checks : List Check := [
  ⟨"Invalid Non-Extrapolated Null Rationale",
   "Rows with NULL rationale but not marked as extrapolated.",
   fun t => plainResult (invalidNonExtrapolatedNullRationale t)⟩,
  ⟨"Invalid Backward Extrapolation",
   "First-year extrapolated entries not using TRL ID 9.",
   fun t => plainResult (invalidBackwardExtrapolation t)⟩,
  ⟨"Duplicate TRL Entries",
   "Duplicate rows for the same client_id, reference_year, and trl_id.",
   fun t => plainResult (duplicateTrlEntries t)⟩,
  ⟨"Priority Violation",
   "Lower-priority TRL entries for same client/year.",
   fun t => rankedResult (priorityViolation t)⟩,
  ⟨"Null Rationale not Extrapolated (≠ 2025)",
   "NULL rationales without extrapolation flag (except 2025).",
   fun t => plainResult (nullRationaleNotExtrapolated t)⟩,
  ⟨"Extrapolated Rows with Rationale",
   "Extrapolated rows that unexpectedly have rationale.",
   fun t => plainResult (extrapolatedRowsWithRationale t)⟩]

/-- Requesting a rule name outside the catalog is a caller error. -/
inductive RuleError where
  | unknownRule : String → RuleError
deriving DecidableEq, Repr

/-- Evaluate one selected rule: look the name up in the catalog, then
submit its query.  Returns the names of the queries submitted to the data
source together with the outcome; an unknown name fails before any query
is submitted. -/
def evaluateRule (t : List Row) (name : String) :
    List String × Except RuleError (List QRow) :=
  match checks.find? (fun c => c.name == name) with
  | none => ([], Except.error (RuleError.unknownRule name))
  | some c => ([c.name], Except.ok (c.run t))

/-- A valid engine arrangement of one partition: any permutation of the
partition consistent with ORDER BY tier ascending, acq_date descending;
SQL leaves the order of key ties unspecified. -/
def validRanking (g p : List Row) : Prop :=
  g.Perm p ∧ p.Sorted keyLE

/-! ### Helper lemmas -/

theorem sqlEq_eq_true {α : Type} [BEq α] [LawfulBEq α] {x : Option α} {v : α} :
    sqlEq x v = true ↔ x = some v := by
  cases x <;> simp [sqlEq]

theorem extrNotOne_eq_true {x : Option Bool} :
    (sqlNe x true || x == none) = true ↔ (x = some false ∨ x = none) := by
  cases x with
  | none => simp [sqlNe]
  | some b => cases b <;> simp [sqlNe]

theorem withRanks_mem {l : List Row} {n : Nat} {p : Row × Nat}
    (h : p ∈ withRanks l n) : p.1 ∈ l ∧ n ≤ p.2 := by
  induction l generalizing n with
  | nil => cases h
  | cons a l ih =>
    rcases List.mem_cons.1 h with h | h
    · subst h; exact ⟨List.mem_cons_self _ _, Nat.le_refl n⟩
    · rcases ih h with ⟨h1, h2⟩
      exact ⟨List.mem_cons_of_mem _ h1, Nat.le_trans (Nat.le_succ n) h2⟩

theorem withRanks_length (l : List Row) (n : Nat) :
    (withRanks l n).length = l.length := by
  induction l generalizing n with
  | nil => rfl
  | cons a l ih => simp [withRanks, ih]

theorem withRanks_filter_of_le {l : List Row} {n : Nat} (h : 2 ≤ n) :
    (withRanks l n).filter (fun p => decide (1 < p.2)) = withRanks l n := by
  induction l generalizing n with
  | nil => rfl
  | cons a l ih =>
    have h1 : (1 < n) := Nat.lt_of_lt_of_le Nat.one_lt_two h
    simp only [withRanks, List.filter_cons, decide_eq_true h1, if_pos]
    rw [ih (Nat.le_trans h (Nat.le_succ n))]

theorem mem_group {t : List Row} {k : Int × Int} {r : Row} :
    r ∈ group t k ↔ r ∈ t ∧ groupKey r = k := by
  simp [group, List.mem_filter]

theorem mem_sortedGroup {t : List Row} {k : Int × Int} {r : Row} :
    r ∈ sortedGroup t k ↔ r ∈ t ∧ groupKey r = k := by
  rw [sortedGroup, List.mem_insertionSort, mem_group]

theorem filter_flatMap_comm {α β : Type} (ks : List α) (f : α → List β)
    (q : β → Bool) :
    (ks.flatMap f).filter q = ks.flatMap fun a => (f a).filter q := by
  induction ks with
  | nil => rfl
  | cons a ks ih => simp [List.flatMap_cons, List.filter_append, ih]

theorem flatMap_eq_of_single {α β : Type} (ks : List α) (f : α → List β)
    (k : α) (hnd : ks.Nodup) (hk : k ∈ ks)
    (h0 : ∀ k' ∈ ks, k' ≠ k → f k' = []) :
    ks.flatMap f = f k := by
  induction ks with
  | nil => cases hk
  | cons a ks ih =>
    rw [List.flatMap_cons]
    rcases List.mem_cons.1 hk with rfl | hk'
    · have hrest : ks.flatMap f = [] := by
        apply List.flatMap_eq_nil_iff.2
        intro k' h'
        exact h0 k' (List.mem_cons_of_mem _ h')
          (fun e => (List.nodup_cons.1 hnd).1 (e ▸ h'))
      rw [hrest, List.append_nil]
    · have ha : f a = [] := by
        apply h0 a (List.mem_cons_self _ _)
        intro e
        exact (List.nodup_cons.1 hnd).1 (e ▸ hk')
      rw [ha, List.nil_append]
      exact ih (List.nodup_cons.1 hnd).2 hk'
        (fun k' h' => h0 k' (List.mem_cons_of_mem _ h'))

theorem tableKeys_nodup (t : List Row) : (tableKeys t).Nodup :=
  List.nodup_dedup _

theorem mem_tableKeys_of_group_ne {t : List Row} {k : Int × Int}
    (h : group t k ≠ []) : k ∈ tableKeys t := by
  rcases hg : group t k with _ | ⟨a, l⟩
  · exact absurd hg h
  · have ha : a ∈ group t k := hg ▸ List.mem_cons_self a l
    rcases mem_group.1 ha with ⟨hat, hak⟩
    exact List.mem_dedup.2 (hak ▸ List.mem_map_of_mem groupKey hat)

theorem rankedTrl_filter_key (t : List Row) (k : Int × Int)
    (hk : group t k ≠ []) :
    (rankedTrl t).filter (fun p => groupKey p.1 == k)
      = withRanks (sortedGroup t k) 1 := by
  rw [rankedTrl, filter_flatMap_comm]
  rw [flatMap_eq_of_single _ _ k (tableKeys_nodup t)
    (mem_tableKeys_of_group_ne hk)]
  · apply List.filter_eq_self.2
    intro p hp
    have := (mem_sortedGroup.1 (withRanks_mem hp).1).2
    simp [this]
  · intro k' _ hne
    apply List.filter_eq_nil_iff.2
    intro p hp
    have := (mem_sortedGroup.1 (withRanks_mem hp).1).2
    simp [this, hne]

theorem keyLE_both_acq_eq {a b : Row} (h1 : keyLE a b) (h2 : keyLE b a) :
    tier a = tier b ∧ a.acq_date = b.acq_date := by
  unfold keyLE at h1 h2
  rcases h1 with h1 | ⟨h1, h1'⟩ <;> rcases h2 with h2 | ⟨h2, h2'⟩ <;>
    first
      | exact absurd h2 (Nat.lt_asymm h1)
      | exact absurd h1 (h2 ▸ Nat.lt_irrefl _)
      | exact absurd h2 (h1 ▸ Nat.lt_irrefl _)
      | exact ⟨h1, le_antisymm h2' h1'⟩

/-- Two arrangements of the same rows, both consistent with the ORDER BY
key, coincide as soon as acq_date separates the rows of the partition. -/
theorem sorted_perm_eq_of_acq_distinct :
    ∀ {p₁ p₂ : List Row}, p₁.Perm p₂ → p₁.Sorted keyLE → p₂.Sorted keyLE →
      p₁.Pairwise (fun a b => a.acq_date ≠ b.acq_date) → p₁ = p₂
  | [], p₂, hp, _, _, _ => hp.nil_eq
  | a :: t₁, [], hp, _, _, _ => by
      exact absurd hp.length_eq (by simp)
  | a :: t₁, b :: t₂, hp, hs₁, hs₂, hd => by
      have hab : a = b := by
        by_contra hne
        have hbmem : b ∈ a :: t₁ := hp.mem_iff.2 (List.mem_cons_self b t₂)
        have hbt₁ : b ∈ t₁ := by
          rcases List.mem_cons.1 hbmem with h | h
          · exact absurd h.symm hne
          · exact h
        have hamem : a ∈ b :: t₂ := hp.mem_iff.1 (List.mem_cons_self a t₁)
        have hat₂ : a ∈ t₂ := by
          rcases List.mem_cons.1 hamem with h | h
          · exact absurd h hne
          · exact h
        have h1 : keyLE a b := (List.sorted_cons.1 hs₁).1 b hbt₁
        have h2 : keyLE b a := (List.sorted_cons.1 hs₂).1 a hat₂
        have hacq : a.acq_date ≠ b.acq_date :=
          (List.pairwise_cons.1 hd).1 b hbt₁
        exact hacq (keyLE_both_acq_eq h1 h2).2
      subst hab
      have htl : t₁ = t₂ :=
        sorted_perm_eq_of_acq_distinct hp.cons_inv
          (List.sorted_cons.1 hs₁).2 (List.sorted_cons.1 hs₂).2 hd.of_cons
      rw [htl]

/-- The insertion-sorted partition is one valid engine arrangement. -/
theorem sortedGroup_validRanking (t : List Row) (k : Int × Int) :
    validRanking (group t k) (sortedGroup t k) :=
  ⟨(List.perm_insertionSort keyLE (group t k)).symm,
   List.sorted_insertionSort keyLE (group t k)⟩

instance : Std.Antisymm ((· : Int) ≤ ·) :=
  ⟨fun h h' => Int.le_antisymm h h'⟩

theorem clientMinYear_eq_some_iff {t : List Row} {c : Int} {y : Int} :
    clientMinYear t c = some y ↔
      ((∃ r ∈ t, r.client_id = c ∧ r.reference_year = y)
        ∧ ∀ r ∈ t, r.client_id = c → y ≤ r.reference_year) := by
  rw [clientMinYear,
    List.min?_eq_some_iff (fun a => Int.le_refl a) min_choice
      (fun a b c => le_min_iff)]
  constructor
  · rintro ⟨h1, h2⟩
    rcases List.mem_map.1 h1 with ⟨r, hr, hry⟩
    rcases List.mem_filter.1 hr with ⟨hrt, hrc⟩
    refine ⟨⟨r, hrt, by simpa using hrc, hry⟩, ?_⟩
    intro s hs hsc
    exact h2 _ (List.mem_map_of_mem _ (List.mem_filter.2 ⟨hs, by simp [hsc]⟩))
  · rintro ⟨⟨r, hrt, hrc, hry⟩, h2⟩
    constructor
    · exact List.mem_map.2 ⟨r, List.mem_filter.2 ⟨hrt, by simp [hrc]⟩, hry⟩
    · intro b hb
      rcases List.mem_map.1 hb with ⟨s, hs, hsy⟩
      rcases List.mem_filter.1 hs with ⟨hst, hsc⟩
      exact hsy ▸ h2 s hst (by simpa using hsc)

/-! ### Concrete rows used in examples and witnesses -/

def rowExemptYear : Row := ⟨1, 2025, 5, some false, none, none, none, 0⟩

def rowMissingRationale : Row := ⟨1, 2024, 5, some false, none, none, none, 0⟩

def rowNullFlag : Row := ⟨2, 2024, 5, none, none, none, none, 0⟩

def rowExtraWithRationale : Row :=
  ⟨3, 2023, 7, some true, some "copied forward", none, none, 0⟩

def rowManual : Row := ⟨1, 2022, 5, none, none, none, some 1, 100⟩

def rowCloudA : Row := ⟨1, 2022, 6, none, none, some "Cloud A", none, 200⟩

def rowDupA : Row := ⟨4, 2021, 5, some false, some "a", none, none, 10⟩

def rowDupB : Row := ⟨4, 2021, 5, some false, some "b", none, none, 20⟩

def rowDupC : Row := ⟨4, 2021, 5, some false, some "c", none, none, 30⟩

def rowUniqueTriple : Row := ⟨4, 2022, 5, some false, some "d", none, none, 40⟩

def rowMinYearExtra : Row := ⟨5, 2020, 5, some true, none, none, none, 0⟩

def rowLaterYear : Row := ⟨5, 2021, 6, some true, none, none, none, 0⟩

def rowMinYearTrl9 : Row := ⟨6, 2020, 9, some true, none, none, none, 0⟩

/-! ### Claims -/

/-- C1, as stated, is false on the code: the "Invalid Non-Extrapolated
Null Rationale" query has no exempt-year clause, so a row with
is_extrapolated = false, rationale = null and reference_year = 2025
does appear in its result (while the "(≠ 2025)" rule excludes it). -/
theorem c1_rationale_exempt_year_counterexample :
    rowExemptYear.is_extrapolated = some false
    ∧ rowExemptYear.rationale = none
    ∧ rowExemptYear.reference_year = 2025
    ∧ rowExemptYear ∈ invalidNonExtrapolatedNullRationale [rowExemptYear]
    ∧ rowExemptYear ∉ nullRationaleNotExtrapolated [rowExemptYear] := by
  decide

/-- C1 (amended): a row with is_extrapolated = false and rationale = null
always appears in "Invalid Non-Extrapolated Null Rationale" (that rule has
no exempt year), and appears in "Null Rationale not Extrapolated" iff its
reference_year is not the exempt year 2025. -/
theorem c1_rationale_exempt_year_amended (t : List Row) (r : Row)
    (hr : r ∈ t) (hext : r.is_extrapolated = some false)
    (hrat : r.rationale = none) :
    r ∈ invalidNonExtrapolatedNullRationale t
    ∧ (r ∈ nullRationaleNotExtrapolated t ↔ r.reference_year ≠ 2025) := by
  constructor
  · rw [invalidNonExtrapolatedNullRationale, List.mem_filter]
    exact ⟨hr, by simp [sqlEq_eq_true, hext, hrat]⟩
  · rw [nullRationaleNotExtrapolated, List.mem_filter]
    simp [hr, hrat, hext, sqlNe, bne_iff_ne]

/-- C1 witness: the amended statement at a concrete non-exempt row. -/
theorem c1_rationale_exempt_year_witness :
    rowMissingRationale ∈ invalidNonExtrapolatedNullRationale
        [rowMissingRationale]
    ∧ (rowMissingRationale ∈ nullRationaleNotExtrapolated
          [rowMissingRationale]
        ↔ rowMissingRationale.reference_year ≠ 2025) :=
  c1_rationale_exempt_year_amended [rowMissingRationale] rowMissingRationale
    (by decide) (by decide) (by decide)

/-- C5: a row appears in "Duplicate TRL Entries" iff at least two table
rows (itself included) carry its (client_id, reference_year, trl_id)
triple; so every member of a group of two or more appears, including the
first, and a row with a unique triple never appears. -/
theorem c5_duplicate_trl_entries (t : List Row) (r : Row) (hr : r ∈ t) :
    r ∈ duplicateTrlEntries t ↔
      2 ≤ t.countP (fun s =>
        s.client_id == r.client_id && s.reference_year == r.reference_year
          && s.trl_id == r.trl_id) := by
  rw [duplicateTrlEntries, List.mem_filter, decide_eq_true_iff]
  exact ⟨fun h => h.2, fun h => ⟨hr, h⟩⟩

/-- C5 witness: the statement at a concrete duplicated row. -/
theorem c5_duplicate_trl_entries_witness :
    rowDupA ∈ duplicateTrlEntries [rowDupA, rowDupB, rowDupC,
        rowUniqueTriple]
    ↔ 2 ≤ List.countP (fun s =>
        s.client_id == rowDupA.client_id
          && s.reference_year == rowDupA.reference_year
          && s.trl_id == rowDupA.trl_id)
        [rowDupA, rowDupB, rowDupC, rowUniqueTriple] :=
  c5_duplicate_trl_entries [rowDupA, rowDupB, rowDupC, rowUniqueTriple]
    rowDupA (by decide)

/-- C7: a row appears in "Extrapolated Rows with Rationale" iff its
is_extrapolated is true and its rationale is non-null. -/
theorem c7_extrapolated_rows_with_rationale (t : List Row) (r : Row)
    (hr : r ∈ t) :
    r ∈ extrapolatedRowsWithRationale t ↔
      (r.is_extrapolated = some true ∧ r.rationale ≠ none) := by
  rw [extrapolatedRowsWithRationale, List.mem_filter]
  simp [hr, sqlEq_eq_true]

/-- C7 witness: the statement at a concrete extrapolated row carrying a
rationale. -/
theorem c7_extrapolated_rows_with_rationale_witness :
    rowExtraWithRationale ∈ extrapolatedRowsWithRationale
        [rowExtraWithRationale]
    ↔ (rowExtraWithRationale.is_extrapolated = some true
        ∧ rowExtraWithRationale.rationale ≠ none) :=
  c7_extrapolated_rows_with_rationale [rowExtraWithRationale]
    rowExtraWithRationale (by decide)

/-- C9: the two rationale rules are asymmetric on a NULL is_extrapolated
flag: with rationale null and reference_year ≠ 2025, such a row satisfies
`is_extrapolated != 1 OR is_extrapolated IS NULL` but not
`is_extrapolated = 0`, so it appears in "Null Rationale not Extrapolated
(≠ 2025)" and not in "Invalid Non-Extrapolated Null Rationale". -/
theorem c9_null_flag_asymmetry (t : List Row) (r : Row) (hr : r ∈ t)
    (hext : r.is_extrapolated = none) (hrat : r.rationale = none)
    (hyear : r.reference_year ≠ 2025) :
    r ∈ nullRationaleNotExtrapolated t
    ∧ r ∉ invalidNonExtrapolatedNullRationale t := by
  constructor
  · rw [nullRationaleNotExtrapolated, List.mem_filter]
    refine ⟨hr, ?_⟩
    simp [hrat, hext, sqlNe, bne_iff_ne, hyear]
  · rw [invalidNonExtrapolatedNullRationale, List.mem_filter]
    rintro ⟨-, hb⟩
    simp [hext, sqlEq] at hb

/-- C9 witness: the statement at a concrete NULL-flag row. -/
theorem c9_null_flag_asymmetry_witness :
    rowNullFlag ∈ nullRationaleNotExtrapolated [rowNullFlag]
    ∧ rowNullFlag ∉ invalidNonExtrapolatedNullRationale [rowNullFlag] :=
  c9_null_flag_asymmetry [rowNullFlag] rowNullFlag (by decide) (by decide)
    (by decide) (by decide)

/-- C6: a row appears in "Invalid Backward Extrapolation" iff its
reference_year is minimal among its client's rows, its is_extrapolated is
true and its trl_id is not 9; so a minimum-year extrapolated row with
trl_id = 9 never appears, nor does any row at a non-minimal year. -/
theorem c6_invalid_backward_extrapolation (t : List Row) (r : Row)
    (hr : r ∈ t) :
    r ∈ invalidBackwardExtrapolation t ↔
      (r.is_extrapolated = some true ∧ r.trl_id ≠ 9
        ∧ ∀ s ∈ t, s.client_id = r.client_id →
            r.reference_year ≤ s.reference_year) := by
  rw [invalidBackwardExtrapolation, List.mem_filter]
  constructor
  · rintro ⟨-, hb⟩
    rw [Bool.and_eq_true, Bool.and_eq_true] at hb
    obtain ⟨⟨hmin, hext⟩, htrl⟩ := hb
    have hm := clientMinYear_eq_some_iff.1 (by simpa using hmin)
    exact ⟨sqlEq_eq_true.1 hext, bne_iff_ne.1 htrl, hm.2⟩
  · rintro ⟨hext, htrl, hmin⟩
    refine ⟨hr, ?_⟩
    rw [Bool.and_eq_true, Bool.and_eq_true]
    refine ⟨⟨?_, sqlEq_eq_true.2 hext⟩, bne_iff_ne.2 htrl⟩
    have h : clientMinYear t r.client_id = some r.reference_year :=
      clientMinYear_eq_some_iff.2 ⟨⟨r, hr, rfl, rfl⟩, hmin⟩
    simp [h]

/-- C6 witness: the statement at a concrete minimum-year extrapolated
row with trl_id = 5, next to a later-year row for the same client. -/
theorem c6_invalid_backward_extrapolation_witness :
    rowMinYearExtra ∈ invalidBackwardExtrapolation
        [rowMinYearExtra, rowLaterYear, rowMinYearTrl9]
    ↔ (rowMinYearExtra.is_extrapolated = some true
        ∧ rowMinYearExtra.trl_id ≠ 9
        ∧ ∀ s ∈ [rowMinYearExtra, rowLaterYear, rowMinYearTrl9],
            s.client_id = rowMinYearExtra.client_id →
              rowMinYearExtra.reference_year ≤ s.reference_year) :=
  c6_invalid_backward_extrapolation
    [rowMinYearExtra, rowLaterYear, rowMinYearTrl9] rowMinYearExtra
    (by decide)

/-- C8: a rule name absent from the catalog fails with the unknown-rule
error, and no query is submitted to the data source. -/
theorem c8_unknown_rule (t : List Row) (nm : String)
    (h : ∀ c ∈ checks, c.name ≠ nm) :
    evaluateRule t nm = ([], Except.error (RuleError.unknownRule nm)) := by
  have hf : checks.find? (fun c => c.name == nm) = none :=
    List.find?_eq_none.2 (fun c hc => by simp [h c hc])
  rw [evaluateRule, hf]

/-- C8 witness: a concrete absent name fails without querying. -/
theorem c8_unknown_rule_witness :
    evaluateRule [] "No Such Rule"
      = ([], Except.error (RuleError.unknownRule "No Such Rule")) :=
  c8_unknown_rule [] "No Such Rule" (by decide)

/-- C2: the Priority Ranking arranges each (client_id, reference_year)
partition by tier ascending with acq_date descending breaking ties (the
arrangement is a permutation of the partition sorted by that key), every
ranked row appears in "Priority Violation" exactly when its rank exceeds
1, and on the example table the Cloud A row is the violation while the
manual_review_quality_id = 1 row is not. -/
theorem c2_priority_ranking (t : List Row) (k : Int × Int) :
    List.Sorted keyLE (sortedGroup t k)
    ∧ (sortedGroup t k).Perm (group t k)
    ∧ (∀ p ∈ rankedTrl t, (p ∈ priorityViolation t ↔ 1 < p.2))
    ∧ tier rowManual = 1 ∧ tier rowCloudA = 3
    ∧ priorityViolation [rowManual, rowCloudA] = [(rowCloudA, 2)] := by
  refine ⟨List.sorted_insertionSort keyLE _,
    List.perm_insertionSort keyLE _, ?_, by decide, by decide, by decide⟩
  intro p hp
  rw [priorityViolation, List.mem_filter, decide_eq_true_iff]
  exact ⟨fun h => h.2, fun h => ⟨hp, h⟩⟩

/-- C2 witness: the statement at the example two-row table. -/
theorem c2_priority_ranking_witness :
    List.Sorted keyLE (sortedGroup [rowManual, rowCloudA] (1, 2022))
    ∧ (sortedGroup [rowManual, rowCloudA] (1, 2022)).Perm
        (group [rowManual, rowCloudA] (1, 2022))
    ∧ (∀ p ∈ rankedTrl [rowManual, rowCloudA],
        (p ∈ priorityViolation [rowManual, rowCloudA] ↔ 1 < p.2))
    ∧ tier rowManual = 1 ∧ tier rowCloudA = 3
    ∧ priorityViolation [rowManual, rowCloudA] = [(rowCloudA, 2)] :=
  c2_priority_ranking [rowManual, rowCloudA] (1, 2022)

/-- C3: in every non-empty partition, the ranked rows are exactly as many
as the partition's rows while the "Priority Violation" rows of the
partition are one fewer, so exactly one row (the canonical, rank-1 one)
is excluded; and a row alone in its partition never appears. -/
theorem c3_exactly_one_canonical (t : List Row) :
    (∀ k, group t k ≠ [] →
      ((rankedTrl t).filter (fun p => groupKey p.1 == k)).length
          = (group t k).length
      ∧ ((priorityViolation t).filter (fun p => groupKey p.1 == k)).length
          = (group t k).length - 1)
    ∧ ∀ r ∈ t, group t (groupKey r) = [r] →
        ∀ n, (r, n) ∉ priorityViolation t := by
  constructor
  · intro k hk
    have h1 := rankedTrl_filter_key t k hk
    constructor
    · rw [h1, withRanks_length, sortedGroup, List.length_insertionSort]
    · have h2 : (priorityViolation t).filter (fun p => groupKey p.1 == k)
          = ((rankedTrl t).filter
              (fun p => groupKey p.1 == k)).filter
            (fun p => decide (1 < p.2)) := by
        rw [priorityViolation, List.filter_filter, List.filter_filter]
        apply List.filter_congr
        intro p _
        exact Bool.and_comm _ _
      rw [h2, h1]
      have hlen : (sortedGroup t k).length = (group t k).length := by
        rw [sortedGroup, List.length_insertionSort]
      rcases hsg : sortedGroup t k with _ | ⟨a, l⟩
      · exfalso
        apply hk
        have hp := List.perm_insertionSort keyLE (group t k)
        rw [← sortedGroup, hsg] at hp
        exact hp.nil_eq.symm
      · rw [withRanks, List.filter_cons]
        have hfalse : decide (1 < ((a, 1) : Row × Nat).2) = false := rfl
        rw [hfalse]
        simp only [Bool.false_eq_true, if_false]
        rw [withRanks_filter_of_le (Nat.le_refl 2), withRanks_length]
        rw [hsg] at hlen
        simp only [List.length_cons] at hlen
        omega
  · intro r hr hsingle n hmem
    rw [priorityViolation, List.mem_filter, decide_eq_true_iff] at hmem
    obtain ⟨hmem, hn⟩ := hmem
    rw [rankedTrl, List.mem_flatMap] at hmem
    obtain ⟨k', _, hw⟩ := hmem
    have h1 := withRanks_mem hw
    have hkey : groupKey r = k' := (mem_sortedGroup.1 h1.1).2
    subst hkey
    have hsg : sortedGroup t (groupKey r) = [r] := by
      have hp := List.perm_insertionSort keyLE (group t (groupKey r))
      rw [← sortedGroup, hsingle] at hp
      exact List.perm_singleton.1 hp
    rw [hsg] at hw
    have : ((r, n) : Row × Nat) = (r, 1) := by
      simpa [withRanks] using hw
    have : n = 1 := congrArg Prod.snd this
    omega

/-- C3 witness: the partition counts at the example two-row table, with
the non-emptiness hypothesis discharged by evaluation. -/
theorem c3_exactly_one_canonical_witness :
    ((rankedTrl [rowManual, rowCloudA]).filter
        (fun p => groupKey p.1 == ((1 : Int), (2022 : Int)))).length
      = (group [rowManual, rowCloudA] (1, 2022)).length
    ∧ ((priorityViolation [rowManual, rowCloudA]).filter
        (fun p => groupKey p.1 == ((1 : Int), (2022 : Int)))).length
      = (group [rowManual, rowCloudA] (1, 2022)).length - 1 :=
  (c3_exactly_one_canonical [rowManual, rowCloudA]).1 (1, 2022) (by decide)

/-- C4: with pairwise distinct acq_date values inside a partition, any
two evaluations of the ranking (any two arrangements consistent with the
ORDER BY key) coincide, so the canonical head row and the ranked
violation rows are the same on every run. -/
theorem c4_ranking_deterministic (t : List Row) (k : Int × Int)
    (p₁ p₂ : List Row)
    (hdist : (group t k).Pairwise (fun a b => a.acq_date ≠ b.acq_date))
    (h₁ : validRanking (group t k) p₁)
    (h₂ : validRanking (group t k) p₂) :
    p₁ = p₂ ∧ p₁.head? = p₂.head?
    ∧ (withRanks p₁ 1).filter (fun p => decide (1 < p.2))
        = (withRanks p₂ 1).filter (fun p => decide (1 < p.2)) := by
  have hp : p₁.Perm p₂ := h₁.1.symm.trans h₂.1
  have hd₁ : p₁.Pairwise (fun a b => a.acq_date ≠ b.acq_date) :=
    (h₁.1.pairwise_iff (fun h => h.symm)).1 hdist
  have he := sorted_perm_eq_of_acq_distinct hp h₁.2 h₂.2 hd₁
  exact ⟨he, by rw [he], by rw [he]⟩

/-- C4 witness: two runs over the example partition, realised by the
insertion-sorted arrangement, with all hypotheses discharged by
evaluation. -/
theorem c4_ranking_deterministic_witness :
    sortedGroup [rowManual, rowCloudA] (1, 2022)
        = sortedGroup [rowManual, rowCloudA] (1, 2022)
    ∧ (sortedGroup [rowManual, rowCloudA] (1, 2022)).head?
        = (sortedGroup [rowManual, rowCloudA] (1, 2022)).head?
    ∧ (withRanks (sortedGroup [rowManual, rowCloudA] (1, 2022)) 1).filter
          (fun p => decide (1 < p.2))
        = (withRanks (sortedGroup [rowManual, rowCloudA] (1, 2022))
            1).filter (fun p => decide (1 < p.2)) :=
  c4_ranking_deterministic [rowManual, rowCloudA] (1, 2022)
    (sortedGroup [rowManual, rowCloudA] (1, 2022))
    (sortedGroup [rowManual, rowCloudA] (1, 2022))
    (by decide)
    (sortedGroup_validRanking [rowManual, rowCloudA] (1, 2022))
    (sortedGroup_validRanking [rowManual, rowCloudA] (1, 2022))

/-- C10: every row returned by the "Priority Violation" catalog entry
carries a rnk value, greater than 1, that is the row's rank inside its
partition; every other catalog entry returns rows with no rnk column. -/
theorem c10_rnk_column (t : List Row) :
    (∀ c ∈ checks, c.name = "Priority Violation" →
      ∀ q ∈ c.run t,
        ∃ n, q.rnk = some n ∧ 1 < n ∧ (q.row, n) ∈ rankedTrl t)
    ∧ (∀ c ∈ checks, c.name ≠ "Priority Violation" →
      ∀ q ∈ c.run t, q.rnk = none) := by
  constructor
  · intro c hc hname q hq
    simp only [checks, List.mem_cons, List.not_mem_nil, or_false] at hc
    rcases hc with rfl | rfl | rfl | rfl | rfl | rfl
    · exact absurd hname (by decide)
    · exact absurd hname (by decide)
    · exact absurd hname (by decide)
    · simp only [rankedResult, List.mem_map] at hq
      obtain ⟨p, hp, rfl⟩ := hq
      rw [priorityViolation, List.mem_filter, decide_eq_true_iff] at hp
      exact ⟨p.2, rfl, hp.2, hp.1⟩
    · exact absurd hname (by decide)
    · exact absurd hname (by decide)
  · intro c hc hname q hq
    simp only [checks, List.mem_cons, List.not_mem_nil, or_false] at hc
    rcases hc with rfl | rfl | rfl | rfl | rfl | rfl
    · simp only [plainResult, List.mem_map] at hq
      obtain ⟨r, -, rfl⟩ := hq
      rfl
    · simp only [plainResult, List.mem_map] at hq
      obtain ⟨r, -, rfl⟩ := hq
      rfl
    · simp only [plainResult, List.mem_map] at hq
      obtain ⟨r, -, rfl⟩ := hq
      rfl
    · exact absurd rfl hname
    · simp only [plainResult, List.mem_map] at hq
      obtain ⟨r, -, rfl⟩ := hq
      rfl
    · simp only [plainResult, List.mem_map] at hq
      obtain ⟨r, -, rfl⟩ := hq
      rfl

/-- C10 witness: the statement instantiated at the example table, all
hypotheses discharged by evaluation, for one ranked and one plain rule. -/
theorem c10_rnk_column_witness :
    (∃ n, (QRow.mk rowCloudA (some 2)).rnk = some n ∧ 1 < n
      ∧ ((QRow.mk rowCloudA (some 2)).row, n)
          ∈ rankedTrl [rowManual, rowCloudA])
    ∧ (QRow.mk rowExemptYear none).rnk = none :=
  ⟨(c10_rnk_column [rowManual, rowCloudA]).1
      ⟨"Priority Violation",
       "Lower-priority TRL entries for same client/year.",
       fun t => rankedResult (priorityViolation t)⟩
      (by simp [checks])
      rfl (QRow.mk rowCloudA (some 2)) (by decide),
   (c10_rnk_column [rowExemptYear]).2
      ⟨"Invalid Non-Extrapolated Null Rationale",
       "Rows with NULL rationale but not marked as extrapolated.",
       fun t => plainResult (invalidNonExtrapolatedNullRationale t)⟩
      (by simp [checks])
      (by decide) (QRow.mk rowExemptYear none) (by decide)⟩
